import Mathlib

/-!
Verification of the parallel, resumable, checksum-verified download pipeline
implemented in `pyega3/data_file.py` (class `DataFile`).

The embedding is shallow and sequential:
* file contents are byte lists (`Bytes`), the local filesystem is an
  association list from paths to contents (`FS`);
* the remote data endpoint is a function from a requested byte range
  (inclusive HTTP `Range` bounds) to the streamed body;
* the md5 helper, the checksum-sidecar name helper and the on-disk merge
  helper live in `pyega3/utils.py`, which is not part of the sources at
  hand; they are modelled from the specification and are marked as such;
* the `tqdm` progress bar, logging, and the thread pool are ignored; the
  pool is serialized (`executor.map` preserves argument order, which is the
  only property the coordinator relies on), and every network request made
  is recorded so that "no network activity" claims are expressible.

Machine integers do not overflow here: every quantity is an unbounded
Python `int`, so `Nat` is the faithful carrier.  `math.ceil(a / b)` on
Python ints is modelled as exact natural ceiling division; the two agree
for every realizable file size (they can diverge only beyond 2^53 bytes,
where Python's float division loses precision).
-/

namespace Pyega3

abbrev Bytes := List Nat

/-- Local filesystem: association list from path to file content. -/
abbrev FS := List (String × Bytes)

def FS.lookup : FS → String → Option Bytes
  | [], _ => none
  | (k, v) :: t, p => if p == k then some v else FS.lookup t p

/-- Model of `os.remove` (also used to model overwriting a stale entry). -/
def FS.remove : FS → String → FS
  | [], _ => []
  | (k, v) :: t, p => if k == p then FS.remove t p else (k, v) :: FS.remove t p

/-- Open with mode `wb` and write the whole content. -/
def FS.write (fs : FS) (p : String) (c : Bytes) : FS :=
  (p, c) :: FS.remove fs p

/-- Open with mode `ba` and append (creates the file when absent). -/
def FS.append (fs : FS) (p : String) (c : Bytes) : FS :=
  FS.write fs p (((FS.lookup fs p).getD []) ++ c)

/-- Model of `os.stat(p).st_size` / `os.path.getsize(p)`: `none` when the file is absent. -/
def FS.size (fs : FS) (p : String) : Option Nat :=
  (FS.lookup fs p).map List.length

/-- A single-quote character, used inside the error messages the source
builds with f-strings. -/
def sq : String := String.singleton (Char.ofNat 39)

/-- Errors raised by the pipeline (`ValueError` / `Exception` /
`FileNotFoundError` / `RuntimeError` in the source). -/
inductive DLErr where
  | invalidLength : DLErr
  | sliceSizeMismatch : Nat → Nat → String → DLErr
  | fileNotFound : String → DLErr
  | checksumMismatch : String → DLErr
  deriving DecidableEq

instance {ε α : Type} [DecidableEq ε] [DecidableEq α] : DecidableEq (Except ε α) := fun a b =>
  match a, b with
  | Except.ok x, Except.ok y =>
    match decEq x y with
    | isTrue h => isTrue (by rw [h])
    | isFalse h => isFalse (fun hh => h (by cases hh; rfl))
  | Except.ok _, Except.error _ => isFalse (fun hh => Except.noConfusion hh)
  | Except.error _, Except.ok _ => isFalse (fun hh => Except.noConfusion hh)
  | Except.error x, Except.error y =>
    match decEq x y with
    | isTrue h => isTrue (by rw [h])
    | isFalse h => isFalse (fun hh => h (by cases hh; rfl))

/-- The deterministic temporary-file name of a slice:
`file_name + f'-from-{start_pos}-len-{length}.slice'`. -/
def sliceFileName (file_name : String) (start_pos length : Nat) : String :=
  file_name ++ "-from-" ++ toString start_pos ++ "-len-" ++ toString length ++ ".slice"

/-- Embedding of `DataFile.download_file_slice` (data_file.py lines 143-177).
`server a b` is the body streamed for the header `Range: bytes=a-b`.
The returned list records every range request issued.  The `start_pos < 0`
guard of the source is vacuous over `Nat`; the `length <= 0` guard becomes
`length = 0`.  Note that after discarding an oversized temp file the source
keeps the stale `existing_size`, and this model keeps it too. -/
def download_file_slice (server : Nat → Nat → Bytes) (file_name : String)
    (start_pos length : Nat) (fs : FS) :
    Except DLErr String × FS × List (Nat × Nat) :=
  if length = 0 then (Except.error DLErr.invalidLength, fs, [])
  else
    let fname := sliceFileName file_name start_pos length
    let existing_size := (FS.size fs fname).getD 0
    let fs1 := if length < existing_size then FS.remove fs fname else fs
    if existing_size = length then (Except.ok fname, fs1, [])
    else
      let a := start_pos + existing_size
      let b := start_pos + length - 1
      let fs2 := FS.append fs1 fname (server a b)
      let total_received := (FS.size fs2 fname).getD 0
      if total_received ≠ length then
        (Except.error (DLErr.sliceSizeMismatch total_received length fname), fs2, [(a, b)])
      else
        (Except.ok fname, fs2, [(a, b)])

/-- The connection-count policy of `download_file` (lines 94-98):
clamp the request to `[1, 128]`, then force a single connection for files
below 100 MiB. -/
def clamp_connections (file_size num_connections : Nat) : Nat :=
  if file_size < 100 * 1024 * 1024 then 1 else min (max num_connections 1) 128

/-- The slice length `chunk_len = math.ceil(file_size / num_connections)` (line 102),
as exact natural ceiling division. -/
def chunk_len (file_size num_connections : Nat) : Nat :=
  (file_size + num_connections - 1) / num_connections

/-- The slice plan of one attempt (lines 102-107): the `(start, length)`
pairs produced by
`[(pos, min(chunk_len, file_size - pos)) for pos in range(0, file_size, chunk_len)]`. -/
def slice_plan (file_size num_connections : Nat) : List (Nat × Nat) :=
  let n := clamp_connections file_size num_connections
  let c := chunk_len file_size n
  (List.range' 0 ((file_size + c - 1) / c) c).map (fun s => (s, min c (file_size - s)))

/-- Predicate `contiguousFrom s plan`: the slices of `plan` tile an interval
starting at `s`: each slice starts where the previous one ends and has a
nonzero length. -/
def contiguousFrom : Nat → List (Nat × Nat) → Bool
  | _, [] => true
  | s, sl :: rest => (sl.1 == s) && (sl.2 != 0) && contiguousFrom (sl.1 + sl.2) rest

lemma clamp_pos (file_size nc : Nat) : 0 < clamp_connections file_size nc := by
  unfold clamp_connections
  split <;> omega

lemma clamp_le (file_size nc : Nat) : clamp_connections file_size nc ≤ 128 := by
  unfold clamp_connections
  split <;> omega

lemma chunk_len_pos (file_size n : Nat) (hfs : 0 < file_size) (hn : 0 < n) :
    0 < chunk_len file_size n := by
  have h1 : 1 * n ≤ file_size + n - 1 := by omega
  have h2 := (Nat.le_div_iff_mul_le hn).mpr h1
  simpa [chunk_len] using h2

lemma plan_aux (fs c : Nat) (hc : 0 < c) :
    ∀ n s, s < fs → (fs - s + c - 1) / c = n →
      contiguousFrom s ((List.range' s n c).map (fun t => (t, min c (fs - t)))) = true ∧
      (((List.range' s n c).map (fun t => (t, min c (fs - t)))).map Prod.snd).sum = fs - s := by
  intro n
  induction n with
  | zero =>
    intro s hs hn
    exfalso
    have h1 : 1 * c ≤ fs - s + c - 1 := by omega
    have h2 := (Nat.le_div_iff_mul_le hc).mpr h1
    omega
  | succ n ih =>
    intro s hs hn
    rw [List.range'_succ]
    by_cases hsc : fs - s ≤ c
    · have hn0 : n = 0 := by
        have h3 : 1 * c ≤ fs - s + c - 1 := by omega
        have h4 := (Nat.le_div_iff_mul_le hc).mpr h3
        have h5 := (Nat.div_lt_iff_lt_mul hc).mpr (show fs - s + c - 1 < 2 * c by omega)
        omega
      subst hn0
      have hmin : min c (fs - s) = fs - s := min_eq_right hsc
      refine ⟨?_, ?_⟩
      · simp [contiguousFrom, hmin]
        omega
      · simp [hmin]
    · push_neg at hsc
      have hmin : min c (fs - s) = c := min_eq_left (le_of_lt hsc)
      have hrec : (fs - (s + c) + c - 1) / c = n := by
        have he : fs - (s + c) + c - 1 = fs - s - 1 := by omega
        rw [he]
        have h6 := Nat.add_div_right (fs - s - 1) hc
        have h7 : fs - s - 1 + c = fs - s + c - 1 := by omega
        rw [h7] at h6
        omega
      obtain ⟨ih1, ih2⟩ := ih (s + c) (by omega) hrec
      refine ⟨?_, ?_⟩
      · simp [contiguousFrom, hmin, ih1]
        omega
      · simp only [List.map_cons, List.sum_cons, hmin]
        rw [ih2]
        omega

/-- Claim C3: for every positive (IV-adjusted) total size and every requested
connection count, the slice plan partitions `[0, file_size)` exactly: it is
nonempty, the first slice starts at 0, each slice starts where the previous
one ends, every length is positive, and the lengths sum to the total size. -/
theorem C3_slice_plan_partitions (file_size num_connections : Nat) (h : 0 < file_size) :
    slice_plan file_size num_connections ≠ [] ∧
    contiguousFrom 0 (slice_plan file_size num_connections) = true ∧
    ((slice_plan file_size num_connections).map Prod.snd).sum = file_size := by
  have hn := clamp_pos file_size num_connections
  have hc := chunk_len_pos file_size (clamp_connections file_size num_connections) h hn
  have hplan : slice_plan file_size num_connections =
      (List.range' 0
        ((file_size + chunk_len file_size (clamp_connections file_size num_connections) - 1) /
          chunk_len file_size (clamp_connections file_size num_connections))
        (chunk_len file_size (clamp_connections file_size num_connections))).map
        (fun s => (s, min (chunk_len file_size (clamp_connections file_size num_connections))
          (file_size - s))) := rfl
  have key := plan_aux file_size (chunk_len file_size (clamp_connections file_size num_connections))
    hc ((file_size + chunk_len file_size (clamp_connections file_size num_connections) - 1) /
      chunk_len file_size (clamp_connections file_size num_connections)) 0 h (by simp)
  rw [hplan]
  refine ⟨?_, key.1, by simpa using key.2⟩
  intro hempty
  have h0 := key.2
  rw [hempty] at h0
  simp at h0
  omega

/-- Witness for C3 at a concrete input. -/
theorem C3_slice_plan_partitions_witness :
    slice_plan 10 3 ≠ [] ∧
    contiguousFrom 0 (slice_plan 10 3) = true ∧
    ((slice_plan 10 3).map Prod.snd).sum = 10 :=
  C3_slice_plan_partitions 10 3 (by decide)

lemma clamp_chunk_bounds (fs nc : Nat) (hfs : 0 < fs) :
    (clamp_connections fs nc - 1) * chunk_len fs (clamp_connections fs nc) < fs ∧
    fs ≤ clamp_connections fs nc * chunk_len fs (clamp_connections fs nc) := by
  by_cases hsmall : fs < 100 * 1024 * 1024
  · have hn : clamp_connections fs nc = 1 := by unfold clamp_connections; rw [if_pos hsmall]
    rw [hn]
    have hc : chunk_len fs 1 = fs := by
      unfold chunk_len
      simp
    rw [hc]
    omega
  · have hn128 : clamp_connections fs nc ≤ 128 := clamp_le fs nc
    have hn1 : 0 < clamp_connections fs nc := clamp_pos fs nc
    have hbig : 100 * 1024 * 1024 ≤ fs := by omega
    set n := clamp_connections fs nc with hndef
    set c := chunk_len fs n with hcdef
    have hupper : n * c ≤ fs + n - 1 := by
      have h1 : c * n ≤ fs + n - 1 := by
        rw [hcdef]
        unfold chunk_len
        exact Nat.div_mul_le_self (fs + n - 1) n
      rw [Nat.mul_comm]
      exact h1
    have hfsle : fs ≤ n * c := by
      have hd := Nat.div_add_mod (fs + n - 1) n
      have hm : (fs + n - 1) % n < n := Nat.mod_lt _ hn1
      rw [hcdef]
      unfold chunk_len
      omega
    have hcbig : 819200 ≤ c := by
      have h1 : fs / n ≤ (fs + n - 1) / n := Nat.div_le_div_right (by omega)
      have h2 : fs / 128 ≤ fs / n := Nat.div_le_div_left hn128 hn1
      have h3 : 104857600 / 128 ≤ fs / 128 := Nat.div_le_div_right (by omega)
      have h4 : 104857600 / 128 = 819200 := by norm_num
      rw [hcdef]
      unfold chunk_len
      omega
    have hsub : (n - 1) * c = n * c - 1 * c := Nat.sub_mul n 1 c
    have hclen : c ≤ n * c := Nat.le_mul_of_pos_left c hn1
    omega

lemma count_eq_of_bounds (fs c n : Nat) (hc : 0 < c) (hn : 0 < n)
    (h1 : (n - 1) * c < fs) (h2 : fs ≤ n * c) : (fs + c - 1) / c = n := by
  have hsub : (n - 1) * c = n * c - 1 * c := Nat.sub_mul n 1 c
  have hclen : c ≤ n * c := Nat.le_mul_of_pos_left c hn
  have hge : n ≤ (fs + c - 1) / c := by
    refine (Nat.le_div_iff_mul_le hc).mpr ?_
    omega
  have hlt : (fs + c - 1) / c < n + 1 := by
    refine (Nat.div_lt_iff_lt_mul hc).mpr ?_
    have : (n + 1) * c = n * c + c := by ring
    omega
  omega

/-- Claim C7: for every positive total size the slice plan consists of
`clamp_connections` many consecutive slices of length
`chunk_len = ceil(file_size / connections)` each, except the last, whose
length is `file_size - (connections - 1) * chunk_len`, always strictly
positive and at most `chunk_len`. -/
theorem C7_slice_plan_shape (file_size num_connections : Nat) (h : 0 < file_size) :
    slice_plan file_size num_connections =
      (List.range (clamp_connections file_size num_connections)).map
        (fun i =>
          (i * chunk_len file_size (clamp_connections file_size num_connections),
           if i = clamp_connections file_size num_connections - 1 then
             file_size - (clamp_connections file_size num_connections - 1) *
               chunk_len file_size (clamp_connections file_size num_connections)
           else chunk_len file_size (clamp_connections file_size num_connections))) ∧
    0 < file_size - (clamp_connections file_size num_connections - 1) *
        chunk_len file_size (clamp_connections file_size num_connections) ∧
    file_size - (clamp_connections file_size num_connections - 1) *
        chunk_len file_size (clamp_connections file_size num_connections) ≤
      chunk_len file_size (clamp_connections file_size num_connections) := by
  have hn1 : 0 < clamp_connections file_size num_connections := clamp_pos file_size num_connections
  have hc : 0 < chunk_len file_size (clamp_connections file_size num_connections) :=
    chunk_len_pos file_size (clamp_connections file_size num_connections) h hn1
  obtain ⟨hlow, hhigh⟩ := clamp_chunk_bounds file_size num_connections h
  set n := clamp_connections file_size num_connections with hndef
  set c := chunk_len file_size n with hcdef
  have hcount : (file_size + c - 1) / c = n := count_eq_of_bounds file_size c n hc hn1 hlow hhigh
  have hsub : (n - 1) * c = n * c - 1 * c := Nat.sub_mul n 1 c
  have hclen : c ≤ n * c := Nat.le_mul_of_pos_left c hn1
  refine ⟨?_, by omega, by omega⟩
  have hplan : slice_plan file_size num_connections =
      (List.range' 0 ((file_size + c - 1) / c) c).map (fun s => (s, min c (file_size - s))) := rfl
  rw [hplan, hcount]
  apply List.ext_getElem
  · simp
  · intro i h1 h2
    have hi : i < n := by simpa using h1
    have hlen : i < (List.range' 0 n c).length := by simpa using hi
    have hr' : (List.range' 0 n c)[i] = 0 + c * i := List.getElem_range' i hlen
    simp only [List.getElem_map, List.getElem_range]
    rw [hr']
    have hmul : c * i = i * c := Nat.mul_comm c i
    refine Prod.ext (by simpa using hmul) ?_
    simp only []
    by_cases hlast : i = n - 1
    · rw [if_pos hlast, hlast]
      have h9 : c * (n - 1) = (n - 1) * c := Nat.mul_comm _ _
      rw [Nat.zero_add, h9]
      exact min_eq_right (by omega)
    · rw [if_neg hlast]
      have hile : i + 1 ≤ n - 1 := by omega
      have hmle : (i + 1) * c ≤ (n - 1) * c := Nat.mul_le_mul_right c hile
      have hsucc : (i + 1) * c = i * c + c := Nat.succ_mul i c
      have : min c (file_size - (0 + c * i)) = c := by
        apply min_eq_left
        rw [Nat.zero_add, hmul]
        omega
      simpa using this

/-- Witness for C7 at a concrete input: 100 MiB, four requested connections. -/
theorem C7_slice_plan_shape_witness :
    slice_plan 104857600 4 =
      (List.range (clamp_connections 104857600 4)).map
        (fun i =>
          (i * chunk_len 104857600 (clamp_connections 104857600 4),
           if i = clamp_connections 104857600 4 - 1 then
             104857600 - (clamp_connections 104857600 4 - 1) *
               chunk_len 104857600 (clamp_connections 104857600 4)
           else chunk_len 104857600 (clamp_connections 104857600 4))) ∧
    0 < 104857600 - (clamp_connections 104857600 4 - 1) *
        chunk_len 104857600 (clamp_connections 104857600 4) ∧
    104857600 - (clamp_connections 104857600 4 - 1) *
        chunk_len 104857600 (clamp_connections 104857600 4) ≤
      chunk_len 104857600 (clamp_connections 104857600 4) :=
  C7_slice_plan_shape 104857600 4 (by decide)

/-- Model of `str.encode()`: the byte content written for a string. -/
def strBytes (s : String) : Bytes :=
  s.data.map Char.toNat

/-- Modelled from the spec: `pyega3.utils.md5` is absent from the sources at
hand; per §4.6 it "computes a checksum over the first `size` bytes of
`path`".  The digest function itself is a parameter `hash`; `none` models
the `FileNotFoundError` raised when the file is absent. -/
def md5file (hash : Bytes → String) (fs : FS) (p : String) (size : Nat) : Option String :=
  (FS.lookup fs p).map (fun c => hash (c.take size))

/-- Modelled from the spec: `pyega3.utils.get_fname_md5` is absent from the
sources at hand; per §6 the checksum sidecar is "named by appending a fixed
suffix to the output path". -/
def get_fname_md5 (p : String) : String :=
  p ++ ".md5"

/-- Modelled from the spec: `pyega3.utils.merge_bin_files_on_disk` is absent
from the sources at hand; per §4.5 it "concatenates slice files strictly in
ascending start-offset order into `destination`" and afterwards "all slice
temporary files are removed". -/
def merge_bin_files_on_disk (fs : FS) (dest : String) (parts : List String) : FS :=
  let content := (parts.map (fun p => (FS.lookup fs p).getD [])).flatten
  parts.foldl FS.remove (FS.write fs dest content)

/-- The message of the final `Exception` of `download_file` (line 138):
`f"Download process expected md5 value '{check_sum}' but got '{received_file_md5}'"`. -/
def mismatchMsg (check_sum received : String) : String :=
  "Download process expected md5 value " ++ sq ++ check_sum ++ sq ++
    " but got " ++ sq ++ received ++ sq

/-- Lines 116-118 of `download_file`: sum the on-disk sizes of the slice
files and merge them into the output only when the sum equals the
(IV-adjusted) total size.  The returned `Nat` counts merge invocations. -/
def merge_stage (file_size : Nat) (output_file : String) (results : List String) (fs : FS) :
    FS × Nat :=
  let total := (results.map (fun f => (FS.size fs f).getD 0)).sum
  if total = file_size then (merge_bin_files_on_disk fs output_file results, 1) else (fs, 0)

/-- Lines 120-138 of `download_file`: compute the md5 of the first
`file_size` bytes of the output, accept it when it matches the expected
checksum or when the server checksum is malformed (length different from
32), persisting the computed digest to the sidecar file; otherwise delete
the output and raise an error naming both checksums. -/
def verify_and_record (hash : Bytes → String) (file_size : Nat)
    (check_sum output_file : String) (fs : FS) : Except DLErr Unit × FS :=
  match md5file hash fs output_file file_size with
  | none => (Except.error (DLErr.fileNotFound output_file), fs)
  | some received =>
    if received == check_sum || check_sum.length != 32 then
      (Except.ok (), FS.write fs (get_fname_md5 output_file) (strBytes received))
    else
      (Except.error (DLErr.checksumMismatch (mismatchMsg check_sum received)), FS.remove fs output_file)

/-- Lines 116-138 of `download_file`: the whole tail of an attempt after all
slice fetches have completed.  Returns the outcome, the final filesystem and
the number of merge invocations. -/
def download_file_finalize (hash : Bytes → String) (file_size : Nat)
    (check_sum output_file : String) (results : List String) (fs : FS) :
    Except DLErr Unit × FS × Nat :=
  let p := merge_stage file_size output_file results fs
  let v := verify_and_record hash file_size check_sum output_file p.1
  (v.1, v.2, p.2)

/-- Line 90 of `download_file`: the pre-check
`os.path.exists(output_file) and md5(output_file, file_size) == check_sum`. -/
def precheck (hash : Bytes → String) (file_size : Nat) (check_sum output_file : String)
    (fs : FS) : Bool :=
  match FS.lookup fs output_file with
  | some c => hash (c.take file_size) == check_sum
  | none => false

/-- Lines 109-112: fetch each planned slice.  `executor.map` preserves
argument order and re-raises the first failure when its result is consumed,
so the sequential fold is the faithful sequential model.  The returned list
accumulates every range request issued. -/
def run_slices (server : Nat → Nat → Bytes) (output_file : String)
    (plan : List (Nat × Nat)) (fs : FS) :
    Except DLErr (List String) × FS × List (Nat × Nat) :=
  match plan with
  | [] => (Except.ok [], fs, [])
  | (s, l) :: rest =>
    match download_file_slice server output_file s l fs with
    | (Except.error e, fs1, reqs) => (Except.error e, fs1, reqs)
    | (Except.ok name, fs1, reqs) =>
      match run_slices server output_file rest fs1 with
      | (Except.error e, fs2, reqs2) => (Except.error e, fs2, reqs ++ reqs2)
      | (Except.ok names, fs2, reqs2) => (Except.ok (name :: names), fs2, reqs ++ reqs2)

/-- Embedding of `DataFile.download_file` (lines 76-138) in the unencrypted mode the
client supports (`key is None`).  `file_size` is the IV-adjusted total size
(the caller subtracts the fixed 16-byte IV overhead).  Returns the outcome,
the final filesystem, the list of range requests issued, and the number of
merge invocations. -/
def download_file (hash : Bytes → String) (server : Nat → Nat → Bytes) (file_size : Nat)
    (check_sum output_file : String) (num_connections : Nat) (fs : FS) :
    Except DLErr Unit × FS × List (Nat × Nat) × Nat :=
  if precheck hash file_size check_sum output_file fs then
    (Except.ok (), fs, [], 0)
  else
    match run_slices server output_file (slice_plan file_size num_connections) fs with
    | (Except.error e, fs1, reqs) => (Except.error e, fs1, reqs, 0)
    | (Except.ok results, fs1, reqs) =>
      let p := download_file_finalize hash file_size check_sum output_file results fs1
      (p.1, p.2.1, reqs, p.2.2)

lemma lookup_remove_ne (fs : FS) (p q : String) (h : q ≠ p) :
    FS.lookup (FS.remove fs p) q = FS.lookup fs q := by
  induction fs with
  | nil => rfl
  | cons e t ih =>
    obtain ⟨k, v⟩ := e
    by_cases hk : k = p
    · subst hk
      have hqk : (q == k) = false := beq_eq_false_iff_ne.mpr h
      simp [FS.remove, FS.lookup, hqk, ih]
    · have hkb : (k == p) = false := beq_eq_false_iff_ne.mpr hk
      cases hqk : q == k <;> simp [FS.remove, FS.lookup, hkb, hqk, ih]

lemma lookup_remove_self (fs : FS) (p : String) :
    FS.lookup (FS.remove fs p) p = none := by
  induction fs with
  | nil => rfl
  | cons e t ih =>
    obtain ⟨k, v⟩ := e
    by_cases hk : k = p
    · subst hk
      simp [FS.remove, ih]
    · have hkb : (k == p) = false := beq_eq_false_iff_ne.mpr hk
      have hpk : (p == k) = false := beq_eq_false_iff_ne.mpr (fun hh => hk hh.symm)
      simp [FS.remove, FS.lookup, hkb, hpk, ih]

lemma lookup_write_self (fs : FS) (p : String) (c : Bytes) :
    FS.lookup (FS.write fs p c) p = some c := by
  simp [FS.write, FS.lookup]

lemma lookup_write_ne (fs : FS) (p q : String) (c : Bytes) (h : q ≠ p) :
    FS.lookup (FS.write fs p c) q = FS.lookup fs q := by
  have hqp : (q == p) = false := beq_eq_false_iff_ne.mpr h
  simp [FS.write, FS.lookup, hqp, lookup_remove_ne fs p q h]

lemma get_fname_md5_ne (p : String) : get_fname_md5 p ≠ p := by
  intro h
  have h1 := congrArg String.length h
  rw [show get_fname_md5 p = p ++ ".md5" from rfl, String.length_append] at h1
  have h4 : String.length ".md5" = 4 := rfl
  omega

lemma download_file_of_precheck (hash : Bytes → String) (server : Nat → Nat → Bytes)
    (file_size : Nat) (check_sum output_file : String) (num_connections : Nat) (fs : FS)
    (h : precheck hash file_size check_sum output_file fs = true) :
    download_file hash server file_size check_sum output_file num_connections fs =
      (Except.ok (), fs, [], 0) := by
  unfold download_file
  simp [h]

lemma download_file_of_slices_err (hash : Bytes → String) (server : Nat → Nat → Bytes)
    (file_size : Nat) (check_sum output_file : String) (num_connections : Nat)
    (fs fs1 : FS) (e : DLErr) (reqs : List (Nat × Nat))
    (h0 : precheck hash file_size check_sum output_file fs = false)
    (h1 : run_slices server output_file (slice_plan file_size num_connections) fs =
      (Except.error e, fs1, reqs)) :
    download_file hash server file_size check_sum output_file num_connections fs =
      (Except.error e, fs1, reqs, 0) := by
  unfold download_file
  rw [h0, h1]
  rfl

lemma download_file_of_slices_ok (hash : Bytes → String) (server : Nat → Nat → Bytes)
    (file_size : Nat) (check_sum output_file : String) (num_connections : Nat)
    (fs fs1 : FS) (results : List String) (reqs : List (Nat × Nat))
    (h0 : precheck hash file_size check_sum output_file fs = false)
    (h1 : run_slices server output_file (slice_plan file_size num_connections) fs =
      (Except.ok results, fs1, reqs)) :
    download_file hash server file_size check_sum output_file num_connections fs =
      ((verify_and_record hash file_size check_sum output_file
          (merge_stage file_size output_file results fs1).1).1,
       (verify_and_record hash file_size check_sum output_file
          (merge_stage file_size output_file results fs1).1).2,
       reqs,
       (merge_stage file_size output_file results fs1).2) := by
  unfold download_file
  rw [h0, h1]
  rfl

/-- Claim C1: the source is expected to discard an oversized slice temp file
and refetch the slice from offset 0 within the slice.  The code removes the
file but keeps the stale `existing_size`, so for a slice `[0, 50)` whose temp
file holds 60 bytes the range request it issues starts at byte 60 (and ends
at byte 49), not at the slice start 0, and the fetch then necessarily fails
the `total_received == length` check.  This theorem evaluates the embedded
code at that failing input. -/
theorem C1_slice_stale_resume_bug :
    download_file_slice (fun _ _ => []) "out" 0 50
        [(sliceFileName "out" 0 50, List.replicate 60 0)] =
      (Except.error (DLErr.sliceSizeMismatch 0 50 (sliceFileName "out" 0 50)),
       [(sliceFileName "out" 0 50, [])], [(60, 49)]) := by
  decide

/-- A fixed 32-character digest value, used by the concrete witnesses. -/
def h32 : String := "0123456789abcdef0123456789abcdef"

/-- A concrete digest function for the witnesses: every content hashes to `h32`. -/
def hash0 : Bytes → String := fun _ => h32

/-- A concrete data endpoint for the witnesses: a range request `bytes=a-b`
streams exactly `b + 1 - a` bytes. -/
def server0 : Nat → Nat → Bytes := fun a b => List.replicate (b + 1 - a) 7

/-- Claim C5: whenever the expected checksum is well-formed (32 characters)
and the digest computed over the first `file_size` bytes of the assembled
output differs from it, `download_file` deletes the destination file and
raises an error whose message contains both the expected and the computed
checksum values. -/
theorem C5_checksum_mismatch_deletes_and_reports (hash : Bytes → String)
    (server : Nat → Nat → Bytes) (file_size : Nat) (check_sum output_file : String)
    (num_connections : Nat) (fs fs1 : FS) (results : List String)
    (reqs : List (Nat × Nat)) (received : String)
    (hcs : check_sum.length = 32)
    (hpre : precheck hash file_size check_sum output_file fs = false)
    (hslices : run_slices server output_file (slice_plan file_size num_connections) fs =
      (Except.ok results, fs1, reqs))
    (hmd5 : md5file hash (merge_stage file_size output_file results fs1).1 output_file
      file_size = some received)
    (hne : received ≠ check_sum) :
    download_file hash server file_size check_sum output_file num_connections fs =
      (Except.error (DLErr.checksumMismatch (mismatchMsg check_sum received)),
       FS.remove (merge_stage file_size output_file results fs1).1 output_file, reqs,
       (merge_stage file_size output_file results fs1).2) ∧
    FS.lookup (FS.remove (merge_stage file_size output_file results fs1).1 output_file)
      output_file = none ∧
    (∃ a b, mismatchMsg check_sum received = a ++ check_sum ++ b) ∧
    (∃ a b, mismatchMsg check_sum received = a ++ received ++ b) := by
  have hbe : (received == check_sum) = false := beq_eq_false_iff_ne.mpr hne
  have hnv : (check_sum.length != 32) = false := by simp [hcs]
  refine ⟨?_, lookup_remove_self _ _, ?_, ?_⟩
  · rw [download_file_of_slices_ok hash server file_size check_sum output_file
      num_connections fs fs1 results reqs hpre hslices]
    unfold verify_and_record
    rw [hmd5]
    simp [hbe, hnv]
  · refine ⟨"Download process expected md5 value " ++ sq,
      sq ++ " but got " ++ sq ++ received ++ sq, ?_⟩
    simp [mismatchMsg, String.append_assoc]
  · refine ⟨"Download process expected md5 value " ++ sq ++ check_sum ++ sq ++
      " but got " ++ sq, sq, ?_⟩
    simp [mismatchMsg, String.append_assoc]

/-- Witness for C5 at a concrete input: the server checksum is well-formed
but differs from the computed digest, so the attempt deletes the output and
raises naming both values. -/
theorem C5_checksum_mismatch_deletes_and_reports_witness :
    download_file hash0 server0 5 "ffffffffffffffffffffffffffffffff" "out" 1 [] =
      (Except.error (DLErr.checksumMismatch
         (mismatchMsg "ffffffffffffffffffffffffffffffff" h32)),
       FS.remove (merge_stage 5 "out" [sliceFileName "out" 0 5]
         [(sliceFileName "out" 0 5, List.replicate 5 7)]).1 "out", [(0, 4)],
       (merge_stage 5 "out" [sliceFileName "out" 0 5]
         [(sliceFileName "out" 0 5, List.replicate 5 7)]).2) ∧
    FS.lookup (FS.remove (merge_stage 5 "out" [sliceFileName "out" 0 5]
      [(sliceFileName "out" 0 5, List.replicate 5 7)]).1 "out") "out" = none ∧
    (∃ a b, mismatchMsg "ffffffffffffffffffffffffffffffff" h32 =
      a ++ "ffffffffffffffffffffffffffffffff" ++ b) ∧
    (∃ a b, mismatchMsg "ffffffffffffffffffffffffffffffff" h32 = a ++ h32 ++ b) :=
  C5_checksum_mismatch_deletes_and_reports hash0 server0 5
    "ffffffffffffffffffffffffffffffff" "out" 1 []
    [(sliceFileName "out" 0 5, List.replicate 5 7)] [sliceFileName "out" 0 5]
    [(0, 4)] h32 (by decide) (by decide) (by decide) (by decide) (by decide)

lemma verify_ok_inv (hash : Bytes → String) (file_size : Nat) (check_sum output_file : String)
    (fs vfs : FS) (res : Except DLErr Unit)
    (h : verify_and_record hash file_size check_sum output_file fs = (res, vfs))
    (hok : res = Except.ok ()) :
    ∃ oc received, FS.lookup fs output_file = some oc ∧
      received = hash (oc.take file_size) ∧
      ((received == check_sum) || (check_sum.length != 32)) = true ∧
      vfs = FS.write fs (get_fname_md5 output_file) (strBytes received) := by
  subst hok
  unfold verify_and_record at h
  split at h
  · exact absurd (congrArg (fun t => t.1) h) (by simp)
  · rename_i received hm
    split at h
    · rename_i hcond
      have hv := congrArg (fun t => t.2) h
      unfold md5file at hm
      cases hl : FS.lookup fs output_file with
      | none =>
        rw [hl] at hm
        simp at hm
      | some oc =>
        rw [hl] at hm
        simp only [Option.map_some'] at hm
        have hrec : received = hash (oc.take file_size) := by
          injection hm with hh
          exact hh.symm
        exact ⟨oc, received, rfl, hrec, hcond, hv.symm⟩
    · exact absurd (congrArg (fun t => t.1) h) (by simp)

/-- Claim C6: (a) when the destination file already exists and its digest
over the first `file_size` bytes equals the expected checksum, the attempt
short-circuits: it succeeds, issues no network request, and leaves the
filesystem untouched; (b) consequently, when a run with a well-formed
expected checksum succeeds, a second run on the resulting filesystem
performs zero network calls. -/
theorem C6_precheck_idempotence :
    (∀ (hash : Bytes → String) (server : Nat → Nat → Bytes) (file_size : Nat)
        (check_sum output_file : String) (num_connections : Nat) (fs : FS),
      precheck hash file_size check_sum output_file fs = true →
      download_file hash server file_size check_sum output_file num_connections fs =
        (Except.ok (), fs, [], 0)) ∧
    (∀ (hash : Bytes → String) (server : Nat → Nat → Bytes) (file_size : Nat)
        (check_sum output_file : String) (num_connections : Nat) (fs fs1 : FS)
        (reqs : List (Nat × Nat)) (m : Nat),
      check_sum.length = 32 →
      download_file hash server file_size check_sum output_file num_connections fs =
        (Except.ok (), fs1, reqs, m) →
      download_file hash server file_size check_sum output_file num_connections fs1 =
        (Except.ok (), fs1, [], 0)) := by
  constructor
  · intro hash server file_size check_sum output_file num_connections fs h
    exact download_file_of_precheck hash server file_size check_sum output_file
      num_connections fs h
  · intro hash server file_size check_sum output_file num_connections fs fs1 reqs m hcs hrun
    cases h0 : precheck hash file_size check_sum output_file fs with
    | true =>
      rw [download_file_of_precheck hash server file_size check_sum output_file
        num_connections fs h0] at hrun
      have hfs : fs = fs1 := congrArg (fun t => t.2.1) hrun
      subst hfs
      exact download_file_of_precheck hash server file_size check_sum output_file
        num_connections fs h0
    | false =>
      rcases hE : run_slices server output_file (slice_plan file_size num_connections) fs
        with ⟨r, fsA, reqsA⟩
      cases r with
      | error e =>
        rw [download_file_of_slices_err hash server file_size check_sum output_file
          num_connections fs fsA e reqsA h0 hE] at hrun
        exact absurd (congrArg (fun t => t.1) hrun) (by simp)
      | ok results =>
        rw [download_file_of_slices_ok hash server file_size check_sum output_file
          num_connections fs fsA results reqsA h0 hE] at hrun
        have hres : (verify_and_record hash file_size check_sum output_file
            (merge_stage file_size output_file results fsA).1).1 = Except.ok () :=
          congrArg (fun t => t.1) hrun
        have hfs1 : (verify_and_record hash file_size check_sum output_file
            (merge_stage file_size output_file results fsA).1).2 = fs1 :=
          congrArg (fun t => t.2.1) hrun
        obtain ⟨oc, received, hlook, hrec, hcond, hvfs⟩ :=
          verify_ok_inv hash file_size check_sum output_file
            (merge_stage file_size output_file results fsA).1
            (verify_and_record hash file_size check_sum output_file
              (merge_stage file_size output_file results fsA).1).2
            (verify_and_record hash file_size check_sum output_file
              (merge_stage file_size output_file results fsA).1).1
            Prod.mk.eta.symm hres
        have hrcs : received = check_sum := by
          have hnv : (check_sum.length != 32) = false := by simp [hcs]
          rw [hnv, Bool.or_false] at hcond
          exact beq_iff_eq.mp hcond
        have hfs1v : fs1 = FS.write (merge_stage file_size output_file results fsA).1
            (get_fname_md5 output_file) (strBytes received) := by
          rw [← hfs1]
          exact hvfs
        have hpre1 : precheck hash file_size check_sum output_file fs1 = true := by
          rw [hfs1v]
          unfold precheck
          rw [lookup_write_ne _ _ _ _ (Ne.symm (get_fname_md5_ne output_file)), hlook]
          show (hash (oc.take file_size) == check_sum) = true
          rw [← hrec, hrcs]
          simp
        exact download_file_of_precheck hash server file_size check_sum output_file
          num_connections fs1 hpre1

/-- Witness for C6: part (a) at a filesystem that already holds a matching
output file, and part (b) right after a successful genuine download with a
well-formed checksum. -/
theorem C6_precheck_idempotence_witness :
    download_file hash0 server0 5 h32 "out" 1 [("out", [1, 2, 3])] =
      (Except.ok (), [("out", [1, 2, 3])], [], 0) ∧
    download_file hash0 server0 5 h32 "out" 1
        [(get_fname_md5 "out", strBytes h32), ("out", List.replicate 5 7)] =
      (Except.ok (), [(get_fname_md5 "out", strBytes h32), ("out", List.replicate 5 7)],
       [], 0) :=
  ⟨C6_precheck_idempotence.1 hash0 server0 5 h32 "out" 1 [("out", [1, 2, 3])] (by decide),
   C6_precheck_idempotence.2 hash0 server0 5 h32 "out" 1 []
     [(get_fname_md5 "out", strBytes h32), ("out", List.replicate 5 7)] [(0, 4)] 1
     (by decide) (by decide)⟩

/-- Claim C10: whenever `download_file` succeeds after actually performing a
download (the pre-check did not short-circuit), it writes the checksum
sidecar file with the digest computed over the assembled output — with no
well-formedness requirement on the server checksum, so a malformed one
(length different from 32) still gets an unverified digest persisted. -/
theorem C10_sidecar_written_on_success (hash : Bytes → String) (server : Nat → Nat → Bytes)
    (file_size : Nat) (check_sum output_file : String) (num_connections : Nat)
    (fs fs1 : FS) (reqs : List (Nat × Nat)) (m : Nat)
    (hpre : precheck hash file_size check_sum output_file fs = false)
    (hrun : download_file hash server file_size check_sum output_file num_connections fs =
      (Except.ok (), fs1, reqs, m)) :
    ∃ oc, FS.lookup fs1 output_file = some oc ∧
      FS.lookup fs1 (get_fname_md5 output_file) =
        some (strBytes (hash (oc.take file_size))) := by
  rcases hE : run_slices server output_file (slice_plan file_size num_connections) fs
    with ⟨r, fsA, reqsA⟩
  cases r with
  | error e =>
    rw [download_file_of_slices_err hash server file_size check_sum output_file
      num_connections fs fsA e reqsA hpre hE] at hrun
    exact absurd (congrArg (fun t => t.1) hrun) (by simp)
  | ok results =>
    rw [download_file_of_slices_ok hash server file_size check_sum output_file
      num_connections fs fsA results reqsA hpre hE] at hrun
    have hres : (verify_and_record hash file_size check_sum output_file
        (merge_stage file_size output_file results fsA).1).1 = Except.ok () :=
      congrArg (fun t => t.1) hrun
    have hfs1 : (verify_and_record hash file_size check_sum output_file
        (merge_stage file_size output_file results fsA).1).2 = fs1 :=
      congrArg (fun t => t.2.1) hrun
    obtain ⟨oc, received, hlook, hrec, hcond, hvfs⟩ :=
      verify_ok_inv hash file_size check_sum output_file
        (merge_stage file_size output_file results fsA).1
        (verify_and_record hash file_size check_sum output_file
          (merge_stage file_size output_file results fsA).1).2
        (verify_and_record hash file_size check_sum output_file
          (merge_stage file_size output_file results fsA).1).1
        Prod.mk.eta.symm hres
    have hfs1v : fs1 = FS.write (merge_stage file_size output_file results fsA).1
        (get_fname_md5 output_file) (strBytes received) := by
      rw [← hfs1]
      exact hvfs
    refine ⟨oc, ?_, ?_⟩
    · rw [hfs1v]
      rw [lookup_write_ne _ _ _ _ (Ne.symm (get_fname_md5_ne output_file))]
      exact hlook
    · rw [hfs1v, lookup_write_self, hrec]

/-- Witness for C10 at a concrete input with a malformed server checksum
(`"zz"`, length 2): the run downloads, accepts, and persists the computed
digest to the sidecar. -/
theorem C10_sidecar_written_on_success_witness :
    ∃ oc,
      FS.lookup [(get_fname_md5 "out", strBytes h32), ("out", List.replicate 5 7)] "out" =
        some oc ∧
      FS.lookup [(get_fname_md5 "out", strBytes h32), ("out", List.replicate 5 7)]
        (get_fname_md5 "out") = some (strBytes (hash0 (oc.take 5))) :=
  C10_sidecar_written_on_success hash0 server0 5 "zz" "out" 1 []
    [(get_fname_md5 "out", strBytes h32), ("out", List.replicate 5 7)] [(0, 4)] 1
    (by decide) (by decide)

/-- A filesystem exhibiting a slice-size-sum mismatch: the only slice file
holds 3 bytes while the total size is 10, and a stale destination file is
already present. -/
def c2FS : FS := [("t", List.replicate 3 0), ("out", List.replicate 10 1)]

/-- Claim C2 counterexample: with the slice sizes summing to 3 ≠ 10 and a
malformed server checksum, the attempt tail terminates successfully — the
mismatch is not fatal, contradicting the claim that the attempt never
terminates successfully under such a mismatch. -/
theorem C2_mismatch_not_fatal_cex :
    (["t"].map (fun f => (FS.size c2FS f).getD 0)).sum ≠ 10 ∧
    (download_file_finalize hash0 10 "" "out" ["t"] c2FS).1 = Except.ok () := by
  decide

/-- Claim C2 (amended): when the sum of on-disk slice sizes differs from the
total size the merge is not invoked, but no error is raised for the mismatch
itself — the attempt proceeds to verification against whatever destination
file exists. -/
theorem C2_mismatch_skips_merge (hash : Bytes → String) (file_size : Nat)
    (check_sum output_file : String) (results : List String) (fs : FS)
    (h : (results.map (fun f => (FS.size fs f).getD 0)).sum ≠ file_size) :
    merge_stage file_size output_file results fs = (fs, 0) ∧
    (download_file_finalize hash file_size check_sum output_file results fs).2.2 = 0 := by
  have hm : merge_stage file_size output_file results fs = (fs, 0) := by
    unfold merge_stage
    rw [if_neg h]
  refine ⟨hm, ?_⟩
  unfold download_file_finalize
  rw [hm]

/-- Witness for the amended C2 at the concrete mismatching input. -/
theorem C2_mismatch_skips_merge_witness :
    merge_stage 10 "out" ["t"] c2FS = (c2FS, 0) ∧
    (download_file_finalize hash0 10 "" "out" ["t"] c2FS).2.2 = 0 :=
  C2_mismatch_skips_merge hash0 10 "" "out" ["t"] c2FS (by decide)

/-- Model of Python `s.endswith(pat)`: a suffix test on the character sequence
(`String.endsWith` of the library is not kernel-reducible, so the model uses
the structural list suffix test, which has the same semantics). -/
def strEndsWith (s pat : String) : Bool :=
  pat.data.isSuffixOf s.data

/-- The retry loop of `DataFile.download_file_retry` (lines 246-261).
`attempt k fs` runs one whole download attempt (the call to
`download_file`) with attempt index `k` and filesystem `fs`, returning the
outcome and the new filesystem.  `fuel` bounds the number of iterations the
model is allowed to unfold: `none` means the loop is still running after
`fuel` iterations (modelling non-termination).  On success or on raising,
the result carries the outcome, the final filesystem, the number of
attempts performed, and the list of sleep durations (one `retry_wait` entry
between consecutive attempts).  `TEMPORARY_FILES_SHOULD_BE_DELETED` is
`False` (the class default), so no temp-file purge happens on exhaustion. -/
def retry_loop {ε : Type} (attempt : Nat → FS → Except ε Unit × FS) (max_retries : Int)
    (retry_wait : Nat) : Nat → Nat → FS → Option (Except ε Unit × FS × Nat × List Nat)
  | 0, _, _ => none
  | fuel + 1, num_retries, fs =>
    match attempt num_retries fs with
    | (Except.ok _, fs1) => some (Except.ok (), fs1, 1, [])
    | (Except.error e, fs1) =>
      if (num_retries : Int) = max_retries then some (Except.error e, fs1, 1, [])
      else
        match retry_loop attempt max_retries retry_wait fuel (num_retries + 1) fs1 with
        | none => none
        | some (res, fs2, n, sleeps) => some (res, fs2, n + 1, retry_wait :: sleeps)

/-- Embedding of `DataFile.download_file_retry` (lines 212-261) for plain whole-file
downloads: files whose stored name ends with `.gpg` are skipped before
anything else happens (lines 213-217); otherwise the retry loop runs.  The
genomic-range branch delegates wholesale to the external htsget collaborator
and is out of the modelled core (spec §1, §6). -/
def download_file_retry {ε : Type} (name : String) (attempt : Nat → FS → Except ε Unit × FS)
    (max_retries : Int) (retry_wait : Nat) (fuel : Nat) (fs : FS) :
    Option (Except ε Unit × FS × Nat × List Nat) :=
  if strEndsWith name ".gpg" then some (Except.ok (), fs, 0, [])
  else retry_loop attempt max_retries retry_wait fuel 0 fs

lemma retry_loop_succ {ε : Type} (attempt : Nat → FS → Except ε Unit × FS) (mr : Int)
    (w fuel k : Nat) (fs : FS) :
    retry_loop attempt mr w (fuel + 1) k fs =
      (match attempt k fs with
       | (Except.ok _, fs1) => some (Except.ok (), fs1, 1, [])
       | (Except.error e, fs1) =>
         if (k : Int) = mr then some (Except.error e, fs1, 1, [])
         else
           match retry_loop attempt mr w fuel (k + 1) fs1 with
           | none => none
           | some (res, fs2, n, sleeps) => some (res, fs2, n + 1, w :: sleeps)) := rfl

lemma retry_loop_fail_step {ε : Type} (e : ε) (mr : Int) (w fuel k : Nat) (fs : FS) :
    retry_loop (fun _ s => ((Except.error e : Except ε Unit), s)) mr w (fuel + 1) k fs =
      (if (k : Int) = mr then some (Except.error e, fs, 1, [])
       else
         match retry_loop (fun _ s => ((Except.error e : Except ε Unit), s)) mr w fuel
             (k + 1) fs with
         | none => none
         | some (res, fs2, n, sleeps) => some (res, fs2, n + 1, w :: sleeps)) := rfl

lemma retry_loop_all_fail {ε : Type} (e : ε) (N w : Nat) (fs : FS) :
    ∀ fuel k, k ≤ N → N + 1 - k ≤ fuel →
      retry_loop (fun _ s => ((Except.error e : Except ε Unit), s)) (N : Int) w fuel k fs =
        some (Except.error e, fs, N + 1 - k, List.replicate (N - k) w) := by
  intro fuel
  induction fuel with
  | zero =>
    intro k hk hf
    exact absurd hf (by omega)
  | succ fuel ih =>
    intro k hk hf
    rw [retry_loop_fail_step]
    by_cases hkN : k = N
    · subst hkN
      rw [if_pos rfl]
      rw [show k + 1 - k = 1 from by omega, show k - k = 0 from by omega]
      rfl
    · rw [if_neg (by omega)]
      rw [ih (k + 1) (by omega) (by omega)]
      show some ((Except.error e : Except ε Unit), fs, N + 1 - (k + 1) + 1,
        w :: List.replicate (N - (k + 1)) w) =
        some (Except.error e, fs, N + 1 - k, List.replicate (N - k) w)
      rw [show N + 1 - (k + 1) + 1 = N + 1 - k from by omega,
        show N - k = N - (k + 1) + 1 from by omega, List.replicate_succ]

/-- Claim C4: with `max_retries = N ≥ 0` and a deterministically failing
attempt, the loop performs exactly `N + 1` attempts with `N` sleeps of
`retry_wait` between them and re-raises the original failure unchanged; a
negative `max_retries` never terminates (every fuel bound is exhausted);
and any successful attempt ends the loop immediately. -/
theorem C4_retry_loop_behaviour :
    (∀ (ε : Type) (e : ε) (name : String) (N w fuel : Nat) (fs : FS),
      strEndsWith name ".gpg" = false → N + 1 ≤ fuel →
      download_file_retry name (fun _ s => (Except.error e, s)) (N : Int) w fuel fs =
        some (Except.error e, fs, N + 1, List.replicate N w)) ∧
    (∀ (ε : Type) (e : ε) (mr : Int) (w : Nat) (fs : FS), mr < 0 →
      ∀ (fuel k : Nat),
        retry_loop (fun _ s => ((Except.error e : Except ε Unit), s)) mr w fuel k fs = none) ∧
    (∀ (ε : Type) (attempt : Nat → FS → Except ε Unit × FS) (mr : Int) (w fuel k : Nat)
        (fs fs1 : FS), attempt k fs = (Except.ok (), fs1) →
      retry_loop attempt mr w (fuel + 1) k fs = some (Except.ok (), fs1, 1, [])) := by
  refine ⟨?_, ?_, ?_⟩
  · intro ε e name N w fuel fs hname hfuel
    unfold download_file_retry
    rw [hname]
    have h := retry_loop_all_fail e N w fs fuel 0 (by omega) (by omega)
    simpa using h
  · intro ε e mr w fs hmr fuel
    induction fuel with
    | zero => intro k; rfl
    | succ fuel ih =>
      intro k
      rw [retry_loop_fail_step]
      rw [if_neg (by omega)]
      rw [ih (k + 1)]
  · intro ε attempt mr w fuel k fs fs1 hatt
    rw [retry_loop_succ, hatt]

/-- Witness for C4: three attempts for `max_retries = 2` with two sleeps of
5, non-termination for `max_retries = -1`, and immediate success. -/
theorem C4_retry_loop_behaviour_witness :
    download_file_retry "f.bin" (fun _ s => ((Except.error "boom" : Except String Unit), s))
        (2 : Int) 5 7 [] = some (Except.error "boom", [], 3, [5, 5]) ∧
    retry_loop (fun _ s => ((Except.error "boom" : Except String Unit), s)) (-1) 5 4 0 [] =
      none ∧
    retry_loop (fun _ s => ((Except.ok () : Except String Unit), s)) (2 : Int) 5 (3 + 1) 0 [] =
      some (Except.ok (), [], 1, []) :=
  ⟨C4_retry_loop_behaviour.1 String "boom" "f.bin" 2 5 7 [] (by decide) (by omega),
   C4_retry_loop_behaviour.2.1 String "boom" (-1) 5 [] (by decide) 4 0,
   C4_retry_loop_behaviour.2.2 String _ 2 5 3 0 [] [] rfl⟩

/-- Claim C9: for every file whose stored name ends with `.gpg`,
`download_file_retry` returns normally, performing zero download attempts,
leaving the filesystem (hence any output file) untouched, and raising no
error — regardless of `max_retries` and the other arguments. -/
theorem C9_gpg_files_skipped (ε : Type) (name : String)
    (attempt : Nat → FS → Except ε Unit × FS) (max_retries : Int) (retry_wait fuel : Nat)
    (fs : FS) (h : strEndsWith name ".gpg" = true) :
    download_file_retry name attempt max_retries retry_wait fuel fs =
      some (Except.ok (), fs, 0, []) := by
  unfold download_file_retry
  rw [h]
  rfl

/-- Witness for C9 at a concrete `.gpg` name. -/
theorem C9_gpg_files_skipped_witness :
    download_file_retry "vault.gpg"
        (fun _ s => ((Except.error "boom" : Except String Unit), s)) (7 : Int) 5 9
        [("x", [1])] = some (Except.ok (), [("x", [1])], 0, []) :=
  C9_gpg_files_skipped String "vault.gpg" _ 7 5 9 [("x", [1])] (by decide)

/-- The metadata response consumed by `load_metadata` (lines 37-46): the
four JSON fields, each possibly null. -/
structure MetadataResponse where
  displayFileName : Option String
  fileName : Option String
  fileSize : Option Nat
  unencryptedChecksum : Option String
  deriving DecidableEq

/-- The four lazily-hydrated fields of a `DataFile`. -/
structure FileFields where
  display_file_name : Option String
  file_name : Option String
  file_size : Option Nat
  unencrypted_checksum : Option String
  deriving DecidableEq

/-- Embedding of `DataFile.load_metadata` (lines 37-46): raise when the response's
display name or checksum is null, otherwise assign all four fields from the
response (the stored name and the size are copied even when null). -/
def load_metadata (file_id : String) (res : MetadataResponse) : Except String FileFields :=
  match res.displayFileName, res.unencryptedChecksum with
  | some d, some c => Except.ok ⟨some d, res.fileName, res.fileSize, some c⟩
  | _, _ =>
    Except.error ("Metadata for file id " ++ sq ++ file_id ++ sq ++ " could not be retrieved")

/-- Claim C8 counterexample: a response with a null stored `fileName` (one
of the four fields absent) is accepted by `load_metadata` without error, so
hydration does not raise "whenever any of the four response fields is
absent". -/
theorem C8_missing_field_accepted_cex :
    (MetadataResponse.mk (some "d") none (some 5) (some "c")).fileName = none ∧
    load_metadata "f1" (MetadataResponse.mk (some "d") none (some 5) (some "c")) =
      Except.ok (FileFields.mk (some "d") none (some 5) (some "c")) := by
  decide

/-- Claim C8 (amended): hydration succeeds exactly when the display name and
the checksum are present — a missing stored name or size is accepted — and
on success all four fields are populated together from the one response,
with no update in the error case (the model returns no fields then). -/
theorem C8_hydration_checks_two_fields (file_id : String) (res : MetadataResponse) :
    ((∃ f, load_metadata file_id res = Except.ok f) ↔
      res.displayFileName ≠ none ∧ res.unencryptedChecksum ≠ none) ∧
    (∀ f, load_metadata file_id res = Except.ok f →
      f = ⟨res.displayFileName, res.fileName, res.fileSize, res.unencryptedChecksum⟩) := by
  obtain ⟨d, fn, fsz, c⟩ := res
  cases d <;> cases c <;> simp [load_metadata]

/-- Witness for the amended C8 at a fully populated response. -/
theorem C8_hydration_checks_two_fields_witness :
    ∃ f, load_metadata "f1" (MetadataResponse.mk (some "a") (some "b") (some 3) (some "c")) =
      Except.ok f :=
  (C8_hydration_checks_two_fields "f1"
    (MetadataResponse.mk (some "a") (some "b") (some 3) (some "c"))).1.mpr
    ⟨by decide, by decide⟩

end Pyega3
